import Mathlib

/-!
Shallow embedding of the synchronization and crash-recovery core of the
`Arbeitszeiterfassung` time-tracking application, together with proofs of
the specified properties.

The embedding follows the Python sources:
* `redmine_manager.py` — quarter-hour rounding, push (`create_time_entry`),
  ticket pull (`sync_my_tickets`), time-entry pull (`sync_time_entries`),
  config catalog refresh (`update_config_with_projects_and_tickets`);
* `database_manager.py` — the SQLite ledger (`work_log` with its
  `UNIQUE(date, project, work_package, duration)` constraint, and
  `redmine_tickets` with its `UNIQUE ticket_id` column);
* `time_tracker_app.py` — the timer state machine (`record_time`,
  `auto_backup`, `check_for_backup`).

Machine floats of the Python code are modelled by rationals; SQLite tables
by Lean lists of rows; remote/network failures by explicit boolean flags.
-/

namespace Zeiterfassung

/-! ## Quarter-hour rounding (redmine_manager.py)

`create_time_entry` computes
`rounded_hours = max(math.ceil(raw_hours * 4) / 4.0, 0.25)` with
`raw_hours = duration / 3600.0`; `sync_time_entries` computes
`rounded_hours = max(math.ceil(hours * 4) / 4.0, 0.25)` directly on the
remote entry's hours. -/

/-- Rounding applied to a raw number of hours:
`max(math.ceil(h * 4) / 4.0, 0.25)`. -/
def quarterRound (h : ℚ) : ℚ := max ((⌈h * 4⌉ : ℚ) / 4) (1 / 4)

/-- Billable hours computed by the push `create_time_entry` from a duration in
seconds: `raw_hours = duration / 3600.0` followed by `quarterRound`. -/
def roundedHoursOfSeconds (duration : ℚ) : ℚ := quarterRound (duration / 3600)

/-! ## The work_log ledger (database_manager.py)

A `work_log` row holds `(date, project, work_package, duration)`.  The table
is declared with `UNIQUE(date, project, work_package, duration)`, so an
`INSERT` of an exact duplicate raises (sqlite `IntegrityError`), which
`record_time_entry` re-raises after logging. -/

/-- Row of the `work_log` table: `(date, project, work_package, duration)`. -/
structure WorkRow where
  date : String
  project : String
  workPackage : String
  duration : ℚ
deriving DecidableEq, Repr

/-- Storage-level failure of a ledger write (`PersistenceError`). -/
inductive PersistenceError where
  | uniqueViolation
deriving DecidableEq, Repr

/-- Embedding of `DatabaseManager.record_time_entry`: an unconditional SQL
`INSERT` into `work_log`.  The table's `UNIQUE(date, project, work_package,
duration)` constraint makes the insert of an exact duplicate 4-tuple fail;
the Python method re-raises that error to its caller. -/
def record_time_entry (db : List WorkRow) (r : WorkRow) :
    Except PersistenceError (List WorkRow) :=
  if r ∈ db then .error .uniqueViolation else .ok (db ++ [r])

/-- Embedding of `DatabaseManager.time_entry_exists`: exact-match `COUNT(*)`
query on the 4-tuple. -/
def time_entry_exists (db : List WorkRow) (r : WorkRow) : Bool := r ∈ db

/-! ## Time-entry pull (redmine_manager.py, sync_time_entries)

Remote time entries may lack `spent_on`/`hours` and may fail to resolve
their parent issue; such entries are skipped.  The `issue` field of the
model covers both the direct `entry.issue` attribute and the
`redmine.issue.get(entry.issue_id)` fallback of the code. -/

/-- Remote issue as used by the pull passes: id, subject and project name. -/
structure RemoteIssue where
  id : Nat
  subject : String
  project : String
deriving DecidableEq, Repr

/-- Remote time entry: optional fields model the `hasattr` checks in
`sync_time_entries`; `issue` is the resolved parent issue (either the entry's
own `issue` attribute or the result of the `issue_id` lookup), `none` when
neither resolution succeeds. -/
structure RemoteTimeEntry where
  spentOn : Option String
  hours : Option ℚ
  issue : Option RemoteIssue
deriving DecidableEq, Repr

/-- Work-package string derived during the pull:
`f"{issue.id}: {issue.subject}"`. -/
def issueWorkPackage (iss : RemoteIssue) : String :=
  toString iss.id ++ ": " ++ iss.subject

/-- The `work_log` row a pulled time entry maps to, when all of its fields
resolve: date, project of the parent issue, derived work package, and
`duration_seconds = rounded_hours * 3600`. -/
def rowOfEntry (e : RemoteTimeEntry) : Option WorkRow :=
  match e.spentOn, e.hours, e.issue with
  | some d, some h, some iss =>
      some ⟨d, iss.project, issueWorkPackage iss, quarterRound h * 3600⟩
  | _, _, _ => none

/-- Processing of one remote time entry by `sync_time_entries`: skip it when
a field is missing, otherwise insert its row unless `time_entry_exists`
already reports an exact match.  The per-entry `try/except: continue` of the
code swallows a ledger error and leaves the table unchanged. -/
def syncEntryStep (db : List WorkRow) (e : RemoteTimeEntry) : List WorkRow :=
  match rowOfEntry e with
  | none => db
  | some r =>
      if time_entry_exists db r then db
      else
        match record_time_entry db r with
        | .ok db2 => db2
        | .error _ => db

/-- Embedding of `RedmineManager.sync_time_entries` applied to the list of
remote time entries fetched for the current user. -/
def sync_time_entries (db : List WorkRow) (es : List RemoteTimeEntry) :
    List WorkRow :=
  es.foldl syncEntryStep db

/-- Sample `work_log` row used as a concrete input in witnesses and
counterexamples. -/
def sampleRow : WorkRow :=
  ⟨"2025-02-10", "Projekt A", "17: Beispielticket", 900⟩

/-! ### Lemmas about the time-entry pull -/

lemma mem_syncEntryStep {db : List WorkRow} {x : WorkRow}
    (e : RemoteTimeEntry) (hx : x ∈ db) : x ∈ syncEntryStep db e := by
  unfold syncEntryStep
  cases h : rowOfEntry e with
  | none => exact hx
  | some r =>
    by_cases hex : time_entry_exists db r
    · simp [hex, hx]
    · simp only [hex, if_neg, Bool.false_eq_true, not_false_iff, if_false]
      unfold record_time_entry
      by_cases hr : r ∈ db
      · simp [hr, hx]
      · simp [hr, List.mem_append, hx]

lemma mem_sync_of_mem {x : WorkRow} (es : List RemoteTimeEntry) :
    ∀ db : List WorkRow, x ∈ db → x ∈ sync_time_entries db es := by
  induction es with
  | nil => intro db hx; exact hx
  | cons e es ih =>
    intro db hx
    exact ih (syncEntryStep db e) (mem_syncEntryStep e hx)

lemma rowOf_mem_syncEntryStep {e : RemoteTimeEntry} {r : WorkRow}
    (db : List WorkRow) (h : rowOfEntry e = some r) :
    r ∈ syncEntryStep db e := by
  unfold syncEntryStep
  rw [h]
  by_cases hex : time_entry_exists db r
  · have : r ∈ db := of_decide_eq_true hex
    simp [hex, this]
  · have hr : r ∉ db := fun hmem => hex (decide_eq_true hmem)
    simp only [hex, Bool.false_eq_true, if_false]
    unfold record_time_entry
    simp [hr]

lemma rowOf_mem_sync {e : RemoteTimeEntry} {r : WorkRow}
    {es : List RemoteTimeEntry} (he : e ∈ es) (h : rowOfEntry e = some r) :
    ∀ db : List WorkRow, r ∈ sync_time_entries db es := by
  induction es with
  | nil => cases he
  | cons e0 es ih =>
    intro db
    rcases List.mem_cons.mp he with rfl | hmem
    · exact mem_sync_of_mem es _ (rowOf_mem_syncEntryStep db h)
    · exact ih hmem (syncEntryStep db e0)

lemma syncEntryStep_eq_of_mem {db : List WorkRow} {e : RemoteTimeEntry}
    (h : ∀ r, rowOfEntry e = some r → r ∈ db) : syncEntryStep db e = db := by
  unfold syncEntryStep
  cases hrow : rowOfEntry e with
  | none => rfl
  | some r =>
    have : time_entry_exists db r := decide_eq_true (h r hrow)
    simp [this]

lemma sync_eq_of_all_mem {es : List RemoteTimeEntry} :
    ∀ db : List WorkRow,
      (∀ e ∈ es, ∀ r, rowOfEntry e = some r → r ∈ db) →
      sync_time_entries db es = db := by
  induction es with
  | nil => intro db _; rfl
  | cons e es ih =>
    intro db h
    have hstep : syncEntryStep db e = db :=
      syncEntryStep_eq_of_mem (h e (List.mem_cons_self e es))
    show sync_time_entries (syncEntryStep db e) es = db
    rw [hstep]
    exact ih db fun e0 he0 r hr => h e0 (List.mem_cons_of_mem e he0) r hr

/-! ### Claims C1, C5, C6 -/

/-- C1: for every duration d > 0 seconds, the billable-hours conversion used
by push (`create_time_entry`, from seconds) and pull (`sync_time_entries`,
from hours) equals `max(ceil(d/3600*4)/4, 0.25)`; in particular 1 s ↦ 0.25 h,
899 s ↦ 0.25 h, 901 s ↦ 0.5 h and 3600 s ↦ 1 h. -/
theorem rounding_policy_eq_quarter_ceiling :
    (∀ d : ℚ, 0 < d →
        roundedHoursOfSeconds d = max ((⌈d / 3600 * 4⌉ : ℚ) / 4) (1 / 4) ∧
        quarterRound (d / 3600) = roundedHoursOfSeconds d) ∧
    roundedHoursOfSeconds 1 = 1 / 4 ∧
    roundedHoursOfSeconds 899 = 1 / 4 ∧
    roundedHoursOfSeconds 901 = 1 / 2 ∧
    roundedHoursOfSeconds 3600 = 1 := by
  refine ⟨fun d _ => ⟨rfl, rfl⟩, ?_, ?_, ?_, ?_⟩
  · show max ((⌈(1:ℚ) / 3600 * 4⌉ : ℚ) / 4) (1 / 4) = 1 / 4
    rw [show (1:ℚ) / 3600 * 4 = 1 / 900 by norm_num,
      show ⌈(1:ℚ) / 900⌉ = 1 by rw [Int.ceil_eq_iff]; constructor <;> norm_num]
    norm_num
  · show max ((⌈(899:ℚ) / 3600 * 4⌉ : ℚ) / 4) (1 / 4) = 1 / 4
    rw [show (899:ℚ) / 3600 * 4 = 899 / 900 by norm_num,
      show ⌈(899:ℚ) / 900⌉ = 1 by rw [Int.ceil_eq_iff]; constructor <;> norm_num]
    norm_num
  · show max ((⌈(901:ℚ) / 3600 * 4⌉ : ℚ) / 4) (1 / 4) = 1 / 2
    rw [show (901:ℚ) / 3600 * 4 = 901 / 900 by norm_num,
      show ⌈(901:ℚ) / 900⌉ = 2 by rw [Int.ceil_eq_iff]; constructor <;> norm_num]
    norm_num
  · show max ((⌈(3600:ℚ) / 3600 * 4⌉ : ℚ) / 4) (1 / 4) = 1
    rw [show (3600:ℚ) / 3600 * 4 = 4 by norm_num,
      show ⌈(4:ℚ)⌉ = 4 by exact_mod_cast Int.ceil_intCast 4]
    norm_num

/-- C1 witness: the rounding identity instantiated at the concrete duration
3600 s. -/
theorem rounding_policy_eq_quarter_ceiling_witness :
    roundedHoursOfSeconds 3600 =
      max ((⌈(3600:ℚ) / 3600 * 4⌉ : ℚ) / 4) (1 / 4) :=
  (rounding_policy_eq_quarter_ceiling.1 3600 (by norm_num)).1

/-- C5 counterexample: inserting a `work_log` row whose exact 4-tuple is
already stored does not add a second row — the `UNIQUE(date, project,
work_package, duration)` constraint makes the insert fail. -/
theorem record_duplicate_fails_counterexample :
    record_time_entry [sampleRow] sampleRow =
      .error PersistenceError.uniqueViolation ∧
    record_time_entry [sampleRow] sampleRow ≠ .ok [sampleRow, sampleRow] := by
  constructor
  · unfold record_time_entry
    simp
  · unfold record_time_entry
    simp

/-- C5 amended: `record_time_entry` attempts an unconditional `INSERT`, but
the `work_log` storage layer itself enforces uniqueness of the 4-tuple
(date, project, work_package, duration): inserting an exact duplicate fails
with a persistence error and no row is added, while inserting a fresh tuple
appends exactly one row. -/
theorem record_time_entry_unique_behaviour (db : List WorkRow) (r : WorkRow) :
    (r ∈ db → record_time_entry db r = .error PersistenceError.uniqueViolation) ∧
    (r ∉ db → record_time_entry db r = .ok (db ++ [r])) := by
  constructor
  · intro h; unfold record_time_entry; simp [h]
  · intro h; unfold record_time_entry; simp [h]

/-- C5 witness: the amended behaviour evaluated at the sample row, for a
ledger already containing it and for an empty ledger. -/
theorem record_time_entry_unique_behaviour_witness :
    record_time_entry [sampleRow] sampleRow =
      .error PersistenceError.uniqueViolation ∧
    record_time_entry [] sampleRow = .ok [sampleRow] :=
  ⟨(record_time_entry_unique_behaviour [sampleRow] sampleRow).1
      (List.mem_singleton.mpr rfl),
    (record_time_entry_unique_behaviour [] sampleRow).2 (List.not_mem_nil _)⟩

/-- C6: the time-entry pull is idempotent — running `sync_time_entries`
twice with unchanged remote data leaves the ledger unchanged the second
time, so the row count equals that of a single run; each entry is inserted
only when `time_entry_exists` reports no exact 4-tuple match. -/
theorem sync_time_entries_idempotent (db : List WorkRow)
    (es : List RemoteTimeEntry) :
    sync_time_entries (sync_time_entries db es) es = sync_time_entries db es ∧
    (sync_time_entries (sync_time_entries db es) es).length =
      (sync_time_entries db es).length := by
  have h : sync_time_entries (sync_time_entries db es) es =
      sync_time_entries db es :=
    sync_eq_of_all_mem (sync_time_entries db es)
      (fun e he r hr => rowOf_mem_sync he hr db)
  exact ⟨h, by rw [h]⟩

/-! ## The redmine_tickets table and the ticket pull (C9)

`redmine_tickets` stores cached tickets with a `UNIQUE ticket_id` column.
`insert_ticket` swallows its own storage errors (so inserting a duplicate
`ticket_id` leaves the table unchanged), `update_ticket` runs
`UPDATE ... SET <all fields except ticket_id> WHERE ticket_id = ?`.
`sync_my_tickets` iterates over the issues assigned to the current user and
updates or inserts each, keyed by `ticket_exists`. -/

/-- Row of the `redmine_tickets` table / ticket data assembled by
`sync_my_tickets` from a fetched issue. -/
structure Ticket where
  ticketId : Nat
  subject : String
  project : String
  status : String
  estimatedHours : Option ℚ
  updatedOn : String
  user : String
deriving DecidableEq, Repr

/-- Embedding of `DatabaseManager.ticket_exists`: `COUNT(*)` over rows with
the given `ticket_id`. -/
def ticket_exists (db : List Ticket) (i : Nat) : Bool :=
  db.any fun t => t.ticketId = i

/-- Embedding of `DatabaseManager.insert_ticket`: `INSERT` of a full row.
The `UNIQUE ticket_id` column makes a duplicate-key insert fail; the Python
method catches and logs that error itself, leaving the table unchanged. -/
def insert_ticket (db : List Ticket) (t : Ticket) : List Ticket :=
  if ticket_exists db t.ticketId then db else db ++ [t]

/-- Effect of the `UPDATE` statement of `update_ticket` on a single stored
row: a row whose `ticket_id` matches receives all fields of the new data
except `ticket_id`, which the statement never touches; other rows are left
alone. -/
def applyUpdate (t : Ticket) (u : Ticket) : Ticket :=
  if u.ticketId = t.ticketId then { t with ticketId := u.ticketId } else u

/-- Embedding of `DatabaseManager.update_ticket`:
`UPDATE redmine_tickets SET subject = ?, project = ?, status = ?,
estimated_hours = ?, updated_on = ?, user = ? WHERE ticket_id = ?`. -/
def update_ticket (db : List Ticket) (t : Ticket) : List Ticket :=
  db.map (applyUpdate t)

/-- Processing of one fetched issue by `sync_my_tickets`: update when a row
with its `ticket_id` exists, insert otherwise. -/
def upsertStep (db : List Ticket) (t : Ticket) : List Ticket :=
  if ticket_exists db t.ticketId then update_ticket db t else insert_ticket db t

/-- Embedding of `RedmineManager.sync_my_tickets` applied to the list of
issues fetched for the current user. -/
def sync_my_tickets (db : List Ticket) (issues : List Ticket) : List Ticket :=
  issues.foldl upsertStep db

/-! ### Lemmas about the ticket pull -/

lemma applyUpdate_ticketId (t u : Ticket) :
    (applyUpdate t u).ticketId = u.ticketId := by
  unfold applyUpdate
  by_cases h : u.ticketId = t.ticketId
  · rw [if_pos h]
  · rw [if_neg h]

lemma applyUpdate_self (t : Ticket) : applyUpdate t t = t := by
  unfold applyUpdate
  rw [if_pos rfl]

lemma applyUpdate_same {t t2 : Ticket} (h : t2.ticketId = t.ticketId)
    (u : Ticket) : applyUpdate t (applyUpdate t2 u) = applyUpdate t u := by
  unfold applyUpdate
  by_cases hu : u.ticketId = t2.ticketId
  · simp [hu, h]
  · have hut : u.ticketId ≠ t.ticketId := fun he => hu (he.trans h.symm)
    simp [hu, hut]

lemma applyUpdate_comm {t t2 : Ticket} (h : t2.ticketId ≠ t.ticketId)
    (u : Ticket) :
    applyUpdate t (applyUpdate t2 u) = applyUpdate t2 (applyUpdate t u) := by
  unfold applyUpdate
  by_cases hu2 : u.ticketId = t2.ticketId
  · have hut : u.ticketId ≠ t.ticketId := fun he => h (hu2.symm.trans he)
    simp [hu2, hut, h]
  · by_cases hut : u.ticketId = t.ticketId
    · have : t.ticketId ≠ t2.ticketId := fun he => h (he.symm)
      simp [hu2, hut, this]
    · simp [hu2, hut]

lemma applyUpdate_of_ne {t u : Ticket} (h : u.ticketId ≠ t.ticketId) :
    applyUpdate t u = u := by
  unfold applyUpdate
  rw [if_neg h]

lemma update_ticket_ticketIds (db : List Ticket) (t : Ticket) :
    (update_ticket db t).map Ticket.ticketId = db.map Ticket.ticketId := by
  unfold update_ticket
  rw [List.map_map]
  exact List.map_congr_left fun u _ => applyUpdate_ticketId t u

lemma ticket_exists_update (db : List Ticket) (t : Ticket) (i : Nat) :
    ticket_exists (update_ticket db t) i = ticket_exists db i := by
  unfold ticket_exists update_ticket
  induction db with
  | nil => rfl
  | cons u db ih => simp only [List.map_cons, List.any_cons,
      applyUpdate_ticketId, ih]

lemma update_ticket_append (db : List Ticket) (u t : Ticket)
    (h : u.ticketId ≠ t.ticketId) :
    update_ticket (db ++ [u]) t = update_ticket db t ++ [u] := by
  unfold update_ticket
  rw [List.map_append, List.map_singleton, applyUpdate_of_ne h]

lemma update_ticket_of_not_exists {db : List Ticket} {t : Ticket}
    (h : ticket_exists db t.ticketId = false) : update_ticket db t = db := by
  have hall : ∀ u ∈ db, u.ticketId ≠ t.ticketId := by
    intro u hu he
    have : ticket_exists db t.ticketId = true := by
      unfold ticket_exists
      rw [List.any_eq_true]
      exact ⟨u, hu, by rw [he]; exact decide_eq_true rfl⟩
    rw [this] at h
    cases h
  calc update_ticket db t = db.map id :=
        List.map_congr_left fun u hu => applyUpdate_of_ne (hall u hu)
    _ = db := List.map_id db

lemma update_update_same (db : List Ticket) {t t2 : Ticket}
    (h : t2.ticketId = t.ticketId) :
    update_ticket (update_ticket db t2) t = update_ticket db t := by
  unfold update_ticket
  rw [List.map_map]
  exact List.map_congr_left fun u _ => applyUpdate_same h u

lemma update_ticket_comm (db : List Ticket) {t t2 : Ticket}
    (h : t2.ticketId ≠ t.ticketId) :
    update_ticket (update_ticket db t2) t =
      update_ticket (update_ticket db t) t2 := by
  unfold update_ticket
  rw [List.map_map, List.map_map]
  exact List.map_congr_left fun u _ => applyUpdate_comm h u

lemma ticket_exists_upsertStep (db : List Ticket) (t : Ticket) (i : Nat) :
    ticket_exists (upsertStep db t) i =
      (ticket_exists db i || t.ticketId = i) := by
  unfold upsertStep
  by_cases hex : ticket_exists db t.ticketId
  · rw [if_pos hex, ticket_exists_update]
    by_cases hi : t.ticketId = i
    · subst hi
      simp [hex]
    · simp [hi]
  · rw [if_neg (by simp [hex]), insert_ticket, if_neg (by simp [hex])]
    simp [ticket_exists]

lemma ticket_exists_sync (issues : List Ticket) :
    ∀ db : List Ticket, ∀ i : Nat, ticket_exists db i = true →
      ticket_exists (sync_my_tickets db issues) i = true := by
  induction issues with
  | nil => intro db i h; exact h
  | cons t issues ih =>
    intro db i h
    exact ih (upsertStep db t) i (by rw [ticket_exists_upsertStep, h]; rfl)

lemma mem_ticket_exists_sync {t : Ticket} {issues : List Ticket}
    (ht : t ∈ issues) :
    ∀ db : List Ticket,
      ticket_exists (sync_my_tickets db issues) t.ticketId = true := by
  induction issues with
  | nil => cases ht
  | cons u issues ih =>
    intro db
    rcases List.mem_cons.mp ht with rfl | hmem
    · refine ticket_exists_sync issues (upsertStep db t) t.ticketId ?_
      rw [ticket_exists_upsertStep]
      simp
    · exact ih hmem (upsertStep db u)

lemma upsertStep_fix (db : List Ticket) (t : Ticket) :
    update_ticket (upsertStep db t) t = upsertStep db t := by
  unfold upsertStep
  by_cases hex : ticket_exists db t.ticketId
  · rw [if_pos hex]
    exact update_update_same db rfl
  · rw [if_neg (by simp [hex]), insert_ticket, if_neg (by simp [hex])]
    have h1 : update_ticket db t = db :=
      update_ticket_of_not_exists (by simpa using hex)
    unfold update_ticket at h1 ⊢
    rw [List.map_append, h1, List.map_singleton, applyUpdate_self]

lemma ticket_exists_append_right {db : List Ticket} {i : Nat}
    (h : ticket_exists db i = true) (u : Ticket) :
    ticket_exists (db ++ [u]) i = true := by
  unfold ticket_exists at h ⊢
  rw [List.any_append, h]
  rfl

lemma upsertStep_eq_update {db : List Ticket} {t : Ticket}
    (hex : ticket_exists db t.ticketId = true) :
    upsertStep db t = update_ticket db t := by
  unfold upsertStep
  rw [if_pos hex]

lemma upsertStep_eq_append {db : List Ticket} {t : Ticket}
    (hex : ticket_exists db t.ticketId = false) :
    upsertStep db t = db ++ [t] := by
  unfold upsertStep insert_ticket
  rw [if_neg (by simp [hex]), if_neg (by simp [hex])]

lemma sync_absorbs_update (issues : List Ticket) :
    ∀ db : List Ticket, ∀ t : Ticket,
      ticket_exists db t.ticketId = true →
      (∃ u ∈ issues, u.ticketId = t.ticketId) →
      sync_my_tickets (update_ticket db t) issues = sync_my_tickets db issues := by
  induction issues with
  | nil =>
    intro db t _ hocc
    rcases hocc with ⟨u, hu, _⟩
    cases hu
  | cons v issues ih =>
    intro db t hex hocc
    show sync_my_tickets (upsertStep (update_ticket db t) v) issues =
      sync_my_tickets (upsertStep db v) issues
    by_cases hv : v.ticketId = t.ticketId
    · have hexv : ticket_exists db v.ticketId = true := hv ▸ hex
      have h1 : upsertStep (update_ticket db t) v =
          update_ticket (update_ticket db t) v :=
        upsertStep_eq_update (by rw [ticket_exists_update]; exact hexv)
      have h2 : upsertStep db v = update_ticket db v := upsertStep_eq_update hexv
      rw [h1, h2, update_update_same db hv.symm]
    · have hocc2 : ∃ u ∈ issues, u.ticketId = t.ticketId := by
        rcases hocc with ⟨u, hu, hut⟩
        rcases List.mem_cons.mp hu with rfl | hmem
        · exact absurd hut hv
        · exact ⟨u, hmem, hut⟩
      have htv : t.ticketId ≠ v.ticketId := fun he => hv he.symm
      by_cases hexv : ticket_exists db v.ticketId = true
      · have h1 : upsertStep (update_ticket db t) v =
            update_ticket (update_ticket db t) v :=
          upsertStep_eq_update (by rw [ticket_exists_update]; exact hexv)
        have h2 : upsertStep db v = update_ticket db v :=
          upsertStep_eq_update hexv
        rw [h1, h2, update_ticket_comm db htv]
        exact ih (update_ticket db v) t
          (by rw [ticket_exists_update]; exact hex) hocc2
      · have hexv2 : ticket_exists db v.ticketId = false := by
          simpa using hexv
        have h1 : upsertStep (update_ticket db t) v = update_ticket db t ++ [v] :=
          upsertStep_eq_append (by rw [ticket_exists_update]; exact hexv2)
        have h2 : upsertStep db v = db ++ [v] := upsertStep_eq_append hexv2
        rw [h1, h2, ← update_ticket_append db v t hv]
        exact ih (db ++ [v]) t (ticket_exists_append_right hex v) hocc2

lemma sync_preserves_fixed_update (issues : List Ticket) :
    ∀ db : List Ticket, ∀ t : Ticket,
      update_ticket db t = db →
      (∀ u ∈ issues, u.ticketId ≠ t.ticketId) →
      update_ticket (sync_my_tickets db issues) t = sync_my_tickets db issues := by
  induction issues with
  | nil => intro db t hfix _; exact hfix
  | cons v issues ih =>
    intro db t hfix hall
    have hv : v.ticketId ≠ t.ticketId := hall v (List.mem_cons_self v issues)
    have hstep : update_ticket (upsertStep db v) t = upsertStep db v := by
      by_cases hexv : ticket_exists db v.ticketId = true
      · rw [upsertStep_eq_update hexv, update_ticket_comm db hv, hfix]
      · rw [upsertStep_eq_append (by simpa using hexv),
          update_ticket_append db v t hv, hfix]
    exact ih (upsertStep db v) t hstep
      fun u hu => hall u (List.mem_cons_of_mem v hu)

lemma sync_my_tickets_idem (issues : List Ticket) :
    ∀ db : List Ticket,
      sync_my_tickets (sync_my_tickets db issues) issues =
        sync_my_tickets db issues := by
  induction issues with
  | nil => intro db; rfl
  | cons t issues ih =>
    intro db
    show sync_my_tickets
        (upsertStep (sync_my_tickets (upsertStep db t) issues) t) issues =
      sync_my_tickets (upsertStep db t) issues
    have hex1 : ticket_exists (upsertStep db t) t.ticketId = true := by
      rw [ticket_exists_upsertStep]
      simp
    have hexD : ticket_exists (sync_my_tickets (upsertStep db t) issues)
        t.ticketId = true :=
      ticket_exists_sync issues (upsertStep db t) t.ticketId hex1
    rw [upsertStep_eq_update hexD]
    by_cases hocc : ∃ u ∈ issues, u.ticketId = t.ticketId
    · rw [sync_absorbs_update issues (sync_my_tickets (upsertStep db t) issues)
        t hexD hocc]
      exact ih (upsertStep db t)
    · push_neg at hocc
      rw [sync_preserves_fixed_update issues (upsertStep db t) t
        (upsertStep_fix db t) hocc]
      exact ih (upsertStep db t)

/-! ### Claim C9 -/

/-- Sample cached ticket used as a concrete input in witnesses. -/
def sampleTicket : Ticket :=
  ⟨17, "Beispielticket", "Projekt A", "Neu", some 2, "2025-02-10", "choe"⟩

/-- Second sample ticket, sharing `ticket_id` 17 with `sampleTicket` but with
updated mutable fields. -/
def sampleTicketUpdated : Ticket :=
  ⟨17, "Beispielticket v2", "Projekt A", "In Bearbeitung", some 3,
    "2025-02-11", "choe"⟩

/-- C9: the ticket pull upserts keyed by `ticket_id` — a fetched issue is
inserted when no row with its `ticket_id` exists and otherwise updates the
matching row, with `update_ticket` never changing any stored `ticket_id` —
and running the pull twice with unchanged remote state produces no net
storage change (the table, hence its row count, is identical after the
second run). -/
theorem sync_my_tickets_upsert_and_idempotent :
    (∀ db : List Ticket, ∀ t : Ticket,
        (update_ticket db t).map Ticket.ticketId = db.map Ticket.ticketId) ∧
    (∀ db : List Ticket, ∀ t : Ticket,
        ticket_exists db t.ticketId = true →
          upsertStep db t = update_ticket db t) ∧
    (∀ db : List Ticket, ∀ t : Ticket,
        ticket_exists db t.ticketId = false → upsertStep db t = db ++ [t]) ∧
    (∀ db issues : List Ticket,
        sync_my_tickets (sync_my_tickets db issues) issues =
          sync_my_tickets db issues ∧
        (sync_my_tickets (sync_my_tickets db issues) issues).length =
          (sync_my_tickets db issues).length) := by
  refine ⟨update_ticket_ticketIds, ?_, ?_, ?_⟩
  · intro db t hex
    unfold upsertStep
    rw [if_pos hex]
  · intro db t hex
    unfold upsertStep insert_ticket
    rw [if_neg (by simp [hex]), if_neg (by simp [hex])]
  · intro db issues
    refine ⟨sync_my_tickets_idem issues db, ?_⟩
    rw [sync_my_tickets_idem issues db]

/-- C9 witness: pulling the same single-issue remote state twice, starting
from a ledger that already caches an outdated version of the ticket, updates
in place on the first run and changes nothing on the second. -/
theorem sync_my_tickets_upsert_and_idempotent_witness :
    upsertStep [sampleTicket] sampleTicketUpdated =
      update_ticket [sampleTicket] sampleTicketUpdated ∧
    upsertStep [] sampleTicket = [sampleTicket] ∧
    sync_my_tickets (sync_my_tickets [sampleTicket] [sampleTicketUpdated])
        [sampleTicketUpdated] =
      sync_my_tickets [sampleTicket] [sampleTicketUpdated] :=
  ⟨(sync_my_tickets_upsert_and_idempotent.2.1 [sampleTicket]
      sampleTicketUpdated (by decide)),
    (sync_my_tickets_upsert_and_idempotent.2.2.1 [] sampleTicket (by decide)),
    (sync_my_tickets_upsert_and_idempotent.2.2.2 [sampleTicket]
      [sampleTicketUpdated]).1⟩


/-! ## The push (redmine_manager.py, create_time_entry)

Python strings are modelled through their character lists, since the
relevant operations (`split`, `strip`, `in`) act on characters.
`create_time_entry` acts on the remote state of the backup project: its
project list, its issues (id/subject pairs), the number of time-entry
submissions performed so far and the id the next created issue receives.
Each place the code can raise is modelled by a boolean failure flag. -/

/-- Python `str.strip()`: removes leading and trailing whitespace. -/
def pyStrip (l : List Char) : List Char :=
  ((l.dropWhile Char.isWhitespace).reverse.dropWhile Char.isWhitespace).reverse

/-- Ticket number derived by `create_time_entry`:
`work_package.split(":")[0].strip() if ":" in work_package else
work_package` — the characters before the first colon, stripped, when a
colon is present, and the unchanged string otherwise. -/
def ticket_number (wp : String) : String :=
  if wp.toList.contains ':' then
    (pyStrip (wp.toList.takeWhile fun c => c ≠ ':')).asString
  else wp

/-- Subject string derived by `create_time_entry`:
`f"{original_project} - Ticket {ticket_number}"`. -/
def derivedSubject (originalProject wp : String) : String :=
  originalProject ++ " - Ticket " ++ ticket_number wp

/-- Prefix of a character list before its first occurrence of the two-letter
separator colon-space, or `none` when the separator does not occur. -/
def beforeSep : List Char → Option (List Char)
  | [] => none
  | ':' :: ' ' :: _ => some []
  | c :: rest => (beforeSep rest).map (c :: ·)

/-- Modelled from the spec: the spec derives the ticket number as the
numeric prefix before the colon-space separator, or the whole string if no
separator is present.  Kept separate from `ticket_number` (the code) to
compare the two derivations. -/
def ticketNumberSpec (wp : String) : String :=
  match beforeSep wp.toList with
  | some l => l.asString
  | none => wp

/-- Remote state of the backup project as seen by the push: the remote
project names, the backup project's issues as (id, subject) pairs, the
number of time-entry submissions performed, and the id the next created
issue receives. -/
structure PushRemote where
  projects : List String
  issues : List (Nat × String)
  entriesCount : Nat
  nextId : Nat
deriving DecidableEq, Repr

/-- Failure switches for each place `create_time_entry` can raise: the
connection guard, `project.all()`, `issue.filter(...)` (the swallowed
lookup), `time_entry.create` on an existing issue, `issue.create`, and
`time_entry.create` on the freshly created issue. -/
structure PushEnv where
  connected : Bool
  listProjectsFails : Bool
  lookupFails : Bool
  appendEntryFails : Bool
  createIssueFails : Bool
  newEntryFails : Bool
deriving DecidableEq, Repr

/-- Environment in which no remote operation fails. -/
def honestEnv : PushEnv :=
  ⟨true, false, false, false, false, false⟩

/-- Embedding of `RedmineManager.create_time_entry`.  Returns the id of the
issue handed back to the caller (`none` for Python `None`) together with the
remote state after the call.  Faithful points: a failing issue lookup is
caught locally and replaced by the empty list, after which the code takes
the creation branch; a failing `time_entry.create` on an existing issue is
only logged and the issue is still returned; in the creation branch any
failure is caught by the surrounding handler and `None` is returned, even
when the issue itself was already created. -/
def create_time_entry (env : PushEnv) (backupProject : String)
    (r : PushRemote) (originalProject wp : String) :
    Option Nat × PushRemote :=
  if !env.connected then (none, r)
  else if backupProject = "" then (none, r)
  else if env.listProjectsFails then (none, r)
  else if !(r.projects.contains backupProject) then (none, r)
  else
    let subject := derivedSubject originalProject wp
    let existing :=
      if env.lookupFails then [] else r.issues.filter fun p => p.2 == subject
    match existing.head? with
    | some p =>
        if env.appendEntryFails then (some p.1, r)
        else (some p.1, { r with entriesCount := r.entriesCount + 1 })
    | none =>
        if env.createIssueFails then (none, r)
        else
          let r1 : PushRemote :=
            { r with issues := r.issues ++ [(r.nextId, subject)],
                     nextId := r.nextId + 1 }
          if env.newEntryFails then (none, r1)
          else (some r.nextId, { r1 with entriesCount := r1.entriesCount + 1 })

/-! ### Claims C2 and C8 -/

/-- Environment in which only the issue lookup (`issue.filter`) fails. -/
def lookupFailEnv : PushEnv :=
  ⟨true, false, true, false, false, false⟩

/-- Concrete remote state: the backup project exists and already carries an
issue whose subject matches the derived subject for project "Projekt A" and
work package "17: Beispielticket". -/
def sampleRemote : PushRemote :=
  ⟨["Backup"], [(7, derivedSubject "Projekt A" "17: Beispielticket")], 0, 8⟩

/-- C2 counterexample: when the issue lookup fails, `create_time_entry` does
not yield a null result — the failure is swallowed, the code falls through
to the creation branch, creates a duplicate issue (two issues with the same
subject afterwards) and returns it. -/
theorem create_time_entry_lookup_failure_not_null :
    (create_time_entry lookupFailEnv "Backup" sampleRemote
        "Projekt A" "17: Beispielticket").1 = some 8 ∧
    (create_time_entry lookupFailEnv "Backup" sampleRemote
        "Projekt A" "17: Beispielticket").2.issues.length = 2 ∧
    (create_time_entry lookupFailEnv "Backup" sampleRemote
        "Projekt A" "17: Beispielticket").2.entriesCount = 1 := by
  refine ⟨?_, ?_, ?_⟩ <;> rfl

/-- C2 amended: with a connected gateway and a configured, existing backup
project, a failure-free push appends a time entry to the issue with the
derived subject when one exists and otherwise creates one issue and submits
one entry against it — exactly one submission either way.  The failure
behaviour differs from the claim: a lookup failure is swallowed and the call
proceeds to create a (possibly duplicate) issue; a submission failure on an
existing issue still returns that issue (non-null) with zero submissions;
only issue-creation failure and submission failure in the creation branch
yield null.  No branch retries. -/
theorem create_time_entry_branch_behaviour (bp : String) (r : PushRemote)
    (proj wp : String) (hbp : ¬bp = "")
    (hfound : r.projects.contains bp = true) :
    (∀ p : Nat × String,
        (r.issues.filter fun q => q.2 == derivedSubject proj wp).head? = some p →
        create_time_entry honestEnv bp r proj wp =
          (some p.1, { r with entriesCount := r.entriesCount + 1 })) ∧
    ((r.issues.filter fun q => q.2 == derivedSubject proj wp).head? = none →
        create_time_entry honestEnv bp r proj wp =
          (some r.nextId,
            { r with
                issues := r.issues ++ [(r.nextId, derivedSubject proj wp)],
                nextId := r.nextId + 1,
                entriesCount := r.entriesCount + 1 })) ∧
    (create_time_entry { honestEnv with lookupFails := true } bp r proj wp =
        (some r.nextId,
          { r with
              issues := r.issues ++ [(r.nextId, derivedSubject proj wp)],
              nextId := r.nextId + 1,
              entriesCount := r.entriesCount + 1 })) ∧
    (∀ p : Nat × String,
        (r.issues.filter fun q => q.2 == derivedSubject proj wp).head? = some p →
        create_time_entry { honestEnv with appendEntryFails := true }
            bp r proj wp = (some p.1, r)) ∧
    ((r.issues.filter fun q => q.2 == derivedSubject proj wp).head? = none →
        create_time_entry { honestEnv with createIssueFails := true }
            bp r proj wp = (none, r)) ∧
    ((r.issues.filter fun q => q.2 == derivedSubject proj wp).head? = none →
        create_time_entry { honestEnv with newEntryFails := true }
            bp r proj wp =
          (none,
            { r with
                issues := r.issues ++ [(r.nextId, derivedSubject proj wp)],
                nextId := r.nextId + 1 })) ∧
    (∀ env : PushEnv, ∀ r2 : PushRemote, env.connected = false →
        create_time_entry env bp r2 proj wp = (none, r2)) := by
  have hmem : bp ∈ r.projects := by simpa using hfound
  refine ⟨?_, ?_, ?_, ?_, ?_, ?_, ?_⟩
  · intro p hp
    unfold create_time_entry
    simp [honestEnv, hbp, hmem, hp]
  · intro hp
    unfold create_time_entry
    simp [honestEnv, hbp, hmem, hp]
  · unfold create_time_entry
    simp [honestEnv, hbp, hmem]
  · intro p hp
    unfold create_time_entry
    simp [honestEnv, hbp, hmem, hp]
  · intro hp
    unfold create_time_entry
    simp [honestEnv, hbp, hmem, hp]
  · intro hp
    unfold create_time_entry
    simp [honestEnv, hbp, hmem, hp]
  · intro env r2 hconn
    unfold create_time_entry
    simp [hconn]

/-- C2 witness: the amended branch behaviour evaluated on the concrete
remote state `sampleRemote`, whose backup project carries a matching issue:
the push appends to issue 7 and counts one submission. -/
theorem create_time_entry_branch_behaviour_witness :
    create_time_entry honestEnv "Backup" sampleRemote
        "Projekt A" "17: Beispielticket" =
      (some 7, { sampleRemote with
          entriesCount := sampleRemote.entriesCount + 1 }) :=
  (create_time_entry_branch_behaviour "Backup" sampleRemote
      "Projekt A" "17: Beispielticket" (by decide) (by decide)).1
    (7, derivedSubject "Projekt A" "17: Beispielticket") (by rfl)

/-- C8 counterexample: the spec derives the ticket number from the prefix
before the two-character colon-space separator (whole string when absent),
but the code splits at the first bare colon: on the work package
`123:456` — which contains a colon but no colon-space — the code derives
`123` while the spec-derivation yields the whole string. -/
theorem ticket_number_separator_counterexample :
    ticket_number "123:456" = "123" ∧
    ticketNumberSpec "123:456" = "123:456" ∧
    ticket_number "123:456" ≠ ticketNumberSpec "123:456" := by
  refine ⟨by rfl, by rfl, by decide⟩

lemma filter_subject_nil {r : PushRemote} {s : String}
    (h : ∀ q ∈ r.issues, q.2 ≠ s) :
    (r.issues.filter fun q => q.2 == s) = [] := by
  rw [List.filter_eq_nil_iff]
  intro q hq
  simpa using h q hq

/-- C8 amended: the push derives the ticket number as the characters before
the first colon (stripped of surrounding whitespace), or the whole work
package when it contains no colon — the separator is a bare colon, not
colon-space — and forms the subject `<project> - Ticket <ticket_number>`.
The subject derivation is a function of project and work package, and when
no issue with the derived subject exists a first push creates one and a
second push with the same project and work package finds exactly that issue
and appends to it instead of creating a second issue. -/
theorem subject_derivation_push_key (bp proj wp : String) (r : PushRemote)
    (hbp : ¬bp = "") (hfound : r.projects.contains bp = true)
    (hfresh : ∀ q ∈ r.issues, q.2 ≠ derivedSubject proj wp) :
    (wp.toList.contains ':' = true →
        ticket_number wp =
          (pyStrip (wp.toList.takeWhile fun c => c ≠ ':')).asString) ∧
    (wp.toList.contains ':' = false → ticket_number wp = wp) ∧
    derivedSubject proj wp = proj ++ " - Ticket " ++ ticket_number wp ∧
    (∃ r1 : PushRemote,
        create_time_entry honestEnv bp r proj wp = (some r.nextId, r1) ∧
        r1.issues = r.issues ++ [(r.nextId, derivedSubject proj wp)] ∧
        r1.projects = r.projects ∧
        (create_time_entry honestEnv bp r1 proj wp).1 = some r.nextId ∧
        (create_time_entry honestEnv bp r1 proj wp).2.issues = r1.issues ∧
        (create_time_entry honestEnv bp r1 proj wp).2.entriesCount =
          r1.entriesCount + 1) := by
  have hmem : bp ∈ r.projects := by simpa using hfound
  refine ⟨?_, ?_, rfl, ?_⟩
  · intro h
    unfold ticket_number
    rw [if_pos h]
  · intro h
    unfold ticket_number
    rw [if_neg (by rw [h]; simp)]
  · have hnil : (r.issues.filter fun q => q.2 == derivedSubject proj wp) = [] :=
      filter_subject_nil hfresh
    have h1 : create_time_entry honestEnv bp r proj wp =
        (some r.nextId,
          { r with
              issues := r.issues ++ [(r.nextId, derivedSubject proj wp)],
              nextId := r.nextId + 1,
              entriesCount := r.entriesCount + 1 }) := by
      unfold create_time_entry
      simp [honestEnv, hbp, hmem, hnil]
    refine ⟨_, h1, rfl, rfl, ?_, ?_, ?_⟩
    · unfold create_time_entry
      simp [honestEnv, hbp, hmem, List.filter_append, hnil]
    · unfold create_time_entry
      simp [honestEnv, hbp, hmem, List.filter_append, hnil]
    · unfold create_time_entry
      simp [honestEnv, hbp, hmem, List.filter_append, hnil]

/-- C8 witness: the amended subject derivation and two-push behaviour at a
concrete work package with a colon-space separator, starting from a backup
project with no issues. -/
theorem subject_derivation_push_key_witness :
    ticket_number "17: Beispielticket" =
      (pyStrip ("17: Beispielticket".toList.takeWhile fun c => c ≠ ':')).asString ∧
    (∃ r1 : PushRemote,
        create_time_entry honestEnv "Backup" ⟨["Backup"], [], 0, 1⟩
            "Projekt A" "17: Beispielticket" = (some 1, r1) ∧
        r1.issues =
          [] ++ [(1, derivedSubject "Projekt A" "17: Beispielticket")] ∧
        r1.projects = ["Backup"] ∧
        (create_time_entry honestEnv "Backup" r1
            "Projekt A" "17: Beispielticket").1 = some 1 ∧
        (create_time_entry honestEnv "Backup" r1
            "Projekt A" "17: Beispielticket").2.issues = r1.issues ∧
        (create_time_entry honestEnv "Backup" r1
            "Projekt A" "17: Beispielticket").2.entriesCount =
          r1.entriesCount + 1) := by
  have h := subject_derivation_push_key "Backup" "Projekt A"
    "17: Beispielticket" ⟨["Backup"], [], 0, 1⟩ (by decide) (by rfl)
    (fun q hq => absurd hq (List.not_mem_nil q))
  exact ⟨h.1 (by rfl), h.2.2.2⟩

/-! ## Timer and backup state machine (time_tracker_app.py)

The application state carries the timer fields (`elapsed_time`, `running`,
`start_time`), the two combobox selections, both ledger tables and the
backup snapshot stored in the configuration (`none` models the empty dict).
Wall-clock readings (`time.time()`) and today's date enter as parameters;
a boolean `dbFault` models a storage fault of the ledger write. -/

/-- Backup snapshot written by `auto_backup` into the configuration:
elapsed time, project, work package and timestamp. -/
structure BackupSnapshot where
  elapsedTime : ℚ
  project : String
  workPackage : String
  timestamp : String
deriving DecidableEq, Repr

/-- In-memory state of `TimeTrackerApp` together with the ledger tables and
the configuration's backup entry. -/
structure AppState where
  elapsedTime : ℚ
  running : Bool
  startTime : ℚ
  project : String
  workPackage : String
  workLog : List WorkRow
  tickets : List Ticket
  backup : Option BackupSnapshot
deriving DecidableEq, Repr

/-- Embedding of `TimeTrackerApp.pause_timer`: fold the in-flight delta into
the accumulated elapsed time and stop running; a no-op when not running. -/
def pause_timer (now : ℚ) (st : AppState) : AppState :=
  if st.running then
    { st with running := false,
              elapsedTime := st.elapsedTime + (now - st.startTime) }
  else st

/-- Outcome reported to the user by `record_time` via message boxes. -/
inductive RecordOutcome where
  | noTime
  | missingSelection
  | saved
  | saveError
deriving DecidableEq, Repr

/-- Embedding of `TimeTrackerApp.record_time`: pause if running, validate
elapsed time and selections, attempt the ledger write (`dbFault` models a
storage fault; the `UNIQUE` constraint of `work_log` can also fail the
write), report success or failure — and then, in every case that passes
validation, reset `elapsed_time` to 0 and clear the backup snapshot.  The
best-effort remote push that follows the ledger write only touches remote
state and is not part of the application state. -/
def record_time (now : ℚ) (today : String) (dbFault : Bool)
    (st : AppState) : AppState × RecordOutcome :=
  let st1 := pause_timer now st
  if st1.elapsedTime ≤ 0 then (st1, .noTime)
  else if st1.project = "" ∨ st1.workPackage = "" then (st1, .missingSelection)
  else
    let row : WorkRow := ⟨today, st1.project, st1.workPackage, st1.elapsedTime⟩
    let writeResult :
        List WorkRow × RecordOutcome :=
      if dbFault then (st1.workLog, .saveError)
      else
        match record_time_entry st1.workLog row with
        | .ok db2 => (db2, .saved)
        | .error _ => (st1.workLog, .saveError)
    ({ st1 with workLog := writeResult.1, elapsedTime := 0, backup := none },
      writeResult.2)

/-- Embedding of `TimeTrackerApp.auto_backup` (one periodic tick): when the
accumulated elapsed time is positive, overwrite the backup snapshot with the
current elapsed time — including the in-flight delta when running — and the
current selections and timestamp. -/
def auto_backup (now : ℚ) (ts : String) (st : AppState) : AppState :=
  if 0 < st.elapsedTime then
    let snap : BackupSnapshot :=
      ⟨(if st.running then st.elapsedTime + (now - st.startTime)
        else st.elapsedTime),
        st.project, st.workPackage, ts⟩
    { st with backup := some snap }
  else st

/-- Choice offered by the startup recovery dialog of `check_for_backup`:
resume ("fortsetzen"), save ("speichern"), discard ("löschen"), or
dismissing the dialog without a decision. -/
inductive BackupChoice where
  | resume
  | save
  | discard
  | dismissed
deriving DecidableEq, Repr

/-- Embedding of `TimeTrackerApp.check_for_backup`: when a snapshot with
positive elapsed time is stored, resume restores elapsed time, project and
work package; save restores and immediately performs `record_time`; discard
clears the snapshot; dismissing changes nothing.  Returns the outcome of the
inner `record_time` when one was performed. -/
def check_for_backup (choice : BackupChoice) (now : ℚ) (today : String)
    (dbFault : Bool) (st : AppState) : AppState × Option RecordOutcome :=
  match st.backup with
  | none => (st, none)
  | some b =>
    if 0 < b.elapsedTime then
      match choice with
      | .resume =>
          ({ st with elapsedTime := b.elapsedTime, project := b.project,
                     workPackage := b.workPackage }, none)
      | .save =>
          let st2 : AppState :=
            { st with elapsedTime := b.elapsedTime, project := b.project,
                      workPackage := b.workPackage }
          let res := record_time now today dbFault st2
          (res.1, some res.2)
      | .discard => ({ st with backup := none }, none)
      | .dismissed => (st, none)
    else (st, none)

/-! ### Claims C3, C4, C7 -/

/-- Paused application state with 10 s of unsaved accumulated time and a
matching stored snapshot. -/
def unsavedState : AppState :=
  ⟨10, false, 0, "Projekt A", "17: Beispielticket", [], [],
    some ⟨10, "Projekt A", "17: Beispielticket", "2025-02-10 11:59:00"⟩⟩

/-- C3 counterexample: when the ledger write fails, `record_time` reports
the error but does not leave the in-memory state intact — the accumulated
elapsed time is reset to 0 and the backup snapshot is cleared, so the
unsaved duration is lost and cannot be retried. -/
theorem record_time_persistence_failure_counterexample :
    (record_time 0 "2025-02-10" true unsavedState).2 =
      RecordOutcome.saveError ∧
    (record_time 0 "2025-02-10" true unsavedState).1.elapsedTime = 0 ∧
    (record_time 0 "2025-02-10" true unsavedState).1.backup = none := by
  refine ⟨rfl, rfl, rfl⟩

/-- C3 amended: when the ledger write of a record operation fails, the
failure is caught and reported to the user (`saveError`) and the ledger is
left unchanged — but the timer's in-memory state is not preserved: the
accumulated elapsed time is reset to 0 and the backup snapshot is cleared,
so the unsaved duration is lost. -/
theorem record_time_persistence_failure_behaviour (now : ℚ) (today : String)
    (st : AppState) (hrun : st.running = false) (hpos : 0 < st.elapsedTime)
    (hproj : ¬st.project = "") (hwp : ¬st.workPackage = "") :
    (record_time now today true st).2 = RecordOutcome.saveError ∧
    (record_time now today true st).1.workLog = st.workLog ∧
    (record_time now today true st).1.elapsedTime = 0 ∧
    (record_time now today true st).1.backup = none := by
  have hp : pause_timer now st = st := by
    unfold pause_timer
    rw [hrun]
    simp
  have hle : ¬st.elapsedTime ≤ 0 := not_le.mpr hpos
  unfold record_time
  rw [hp]
  simp [hle, hproj, hwp]

/-- C3 witness: the amended persistence-failure behaviour evaluated on the
concrete state `unsavedState`. -/
theorem record_time_persistence_failure_behaviour_witness :
    (record_time 0 "2025-02-10" true unsavedState).2 =
      RecordOutcome.saveError ∧
    (record_time 0 "2025-02-10" true unsavedState).1.workLog =
      unsavedState.workLog ∧
    (record_time 0 "2025-02-10" true unsavedState).1.elapsedTime = 0 ∧
    (record_time 0 "2025-02-10" true unsavedState).1.backup = none :=
  record_time_persistence_failure_behaviour 0 "2025-02-10" unsavedState
    rfl (by norm_num [unsavedState]) (by decide) (by decide)

/-- Snapshot written by one `auto_backup` tick: the current elapsed time
(including the in-flight running delta when running), the current
selections and the timestamp. -/
def snapshotOf (now : ℚ) (ts : String) (st : AppState) : BackupSnapshot :=
  ⟨(if st.running then st.elapsedTime + (now - st.startTime)
    else st.elapsedTime), st.project, st.workPackage, ts⟩

/-- Running application state whose accumulated elapsed time is still 0
(started and never paused). -/
def runningFreshState : AppState :=
  ⟨0, true, 0, "Projekt A", "17: Beispielticket", [], [], none⟩

/-- C4 counterexample: a periodic tick while the timer is running with
accumulated elapsed 0 and an in-flight delta of 5 s — the total elapsed
including the in-flight delta is positive, yet `auto_backup` writes no
snapshot, because its guard tests only the accumulated elapsed time. -/
theorem auto_backup_inflight_only_counterexample :
    0 < runningFreshState.elapsedTime +
      (5 - runningFreshState.startTime) ∧
    runningFreshState.running = true ∧
    auto_backup 5 "2025-02-10 12:00:05" runningFreshState =
      runningFreshState ∧
    (auto_backup 5 "2025-02-10 12:00:05" runningFreshState).backup =
      none := by
  refine ⟨by norm_num [runningFreshState], rfl, rfl, rfl⟩

/-- C4 amended: a periodic tick overwrites the single snapshot with the
current elapsed time — including the in-flight running delta while running —
and current project/work-package/timestamp, regardless of Running/Paused,
exactly when the accumulated elapsed time (excluding any in-flight delta)
is positive; otherwise the tick changes nothing, even when the in-flight
delta makes the total positive. -/
theorem auto_backup_behaviour (now : ℚ) (ts : String) (st : AppState) :
    (0 < st.elapsedTime →
        auto_backup now ts st =
          { st with backup := some (snapshotOf now ts st) }) ∧
    (st.elapsedTime ≤ 0 → auto_backup now ts st = st) := by
  constructor
  · intro h
    unfold auto_backup snapshotOf
    rw [if_pos h]
  · intro h
    unfold auto_backup
    rw [if_neg (not_lt.mpr h)]

/-- C4 witness: the amended tick behaviour evaluated on the concrete states
`unsavedState` (accumulated 10 s, paused) and `runningFreshState`
(accumulated 0, running). -/
theorem auto_backup_behaviour_witness :
    auto_backup 5 "ts" unsavedState =
      { unsavedState with backup := some (snapshotOf 5 "ts" unsavedState) } ∧
    auto_backup 5 "ts" runningFreshState = runningFreshState :=
  ⟨(auto_backup_behaviour 5 "ts" unsavedState).1
      (by norm_num [unsavedState]),
    (auto_backup_behaviour 5 "ts" runningFreshState).2
      (by norm_num [runningFreshState])⟩

/-- C7: startup recovery with choice resume restores the snapshot's elapsed
time, project and work package into a non-running (paused) timer, performs
no record operation, and leaves both ledger tables untouched. -/
theorem check_for_backup_resume_restores (st : AppState)
    (b : BackupSnapshot) (now : ℚ) (today : String) (dbFault : Bool)
    (hb : st.backup = some b) (hpos : 0 < b.elapsedTime)
    (hrun : st.running = false) :
    (check_for_backup .resume now today dbFault st).1.elapsedTime =
      b.elapsedTime ∧
    (check_for_backup .resume now today dbFault st).1.running = false ∧
    (check_for_backup .resume now today dbFault st).1.project = b.project ∧
    (check_for_backup .resume now today dbFault st).1.workPackage =
      b.workPackage ∧
    (check_for_backup .resume now today dbFault st).1.workLog = st.workLog ∧
    (check_for_backup .resume now today dbFault st).1.tickets = st.tickets ∧
    (check_for_backup .resume now today dbFault st).2 = none := by
  unfold check_for_backup
  rw [hb]
  simp [hpos, hrun]

/-- C7 witness: resume evaluated on a paused state carrying a snapshot with
elapsed 125.4 s restores exactly that elapsed time and creates no ledger
row. -/
theorem check_for_backup_resume_restores_witness :
    (check_for_backup .resume 0 "2025-02-10" false
        ⟨0, false, 0, "", "", [], [],
          some ⟨627/5, "Projekt A", "17: Beispielticket", "ts"⟩⟩).1.elapsedTime =
      (627/5 : ℚ) ∧
    (check_for_backup .resume 0 "2025-02-10" false
        ⟨0, false, 0, "", "", [], [],
          some ⟨627/5, "Projekt A", "17: Beispielticket", "ts"⟩⟩).1.workLog =
      [] :=
  ⟨(check_for_backup_resume_restores
      ⟨0, false, 0, "", "", [], [],
        some ⟨627/5, "Projekt A", "17: Beispielticket", "ts"⟩⟩
      ⟨627/5, "Projekt A", "17: Beispielticket", "ts"⟩
      0 "2025-02-10" false rfl (by norm_num) rfl).1,
    (check_for_backup_resume_restores
      ⟨0, false, 0, "", "", [], [],
        some ⟨627/5, "Projekt A", "17: Beispielticket", "ts"⟩⟩
      ⟨627/5, "Projekt A", "17: Beispielticket", "ts"⟩
      0 "2025-02-10" false rfl (by norm_num) rfl).2.2.2.2.1⟩

/-! ## Config catalog refresh
(redmine_manager.py, update_config_with_projects_and_tickets)

The configuration's `projects` list and `work_packages` dict are modelled by
a list of names and an association list from project name to ticket-label
list.  Python's `sorted(...)` over a set is modelled by an insertion sort
over the deduplicated list.  Per-project issue fetch failures (`continue`)
and a failing `project.all()` are boolean flags. -/

/-- Ticket label placed into the catalog: `f"{issue.id}: {issue.subject}"`. -/
def ticketLabel (p : Nat × String) : String :=
  toString p.1 ++ ": " ++ p.2

/-- Remote project as seen by the refresh: its name, whether fetching its
issues fails, and its issues as (id, subject) pairs. -/
structure RemoteProject where
  name : String
  fetchIssuesFails : Bool
  issues : List (Nat × String)
deriving DecidableEq, Repr

/-- Configuration state touched by the refresh: the `projects` list, the
`work_packages` mapping, the designated backup project and the one-shot
`REDMINE_CONFIG_UPDATED` flag. -/
structure CatalogConfig where
  projects : List String
  workPackages : List (String × List String)
  backupProject : String
  configUpdated : Bool
deriving DecidableEq, Repr

/-- Lookup in the `work_packages` mapping, with Python's
`dict.get(name, [])` default. -/
def getWorkPackages : List (String × List String) → String → List String
  | [], _ => []
  | kv :: w, name => if kv.1 = name then kv.2 else getWorkPackages w name

/-- Key membership in the `work_packages` mapping. -/
def containsKey : List (String × List String) → String → Bool
  | [], _ => false
  | kv :: w, name => if kv.1 = name then true else containsKey w name

/-- Assignment `work_packages[name] = v` on the association list. -/
def setWorkPackages (w : List (String × List String)) (name : String)
    (v : List String) : List (String × List String) :=
  if containsKey w name then
    w.map fun kv => if kv.1 = name then (kv.1, v) else kv
  else w ++ [(name, v)]

/-- Ordered insertion used to model Python's `sorted`. -/
def insertSorted (s : String) : List String → List String
  | [] => [s]
  | x :: xs => if s ≤ x then s :: x :: xs else x :: insertSorted s xs

/-- Insertion sort modelling Python's `sorted` on a list of strings. -/
def sortStrings : List String → List String
  | [] => []
  | x :: xs => insertSorted x (sortStrings xs)

/-- Python `sorted(set(existing).union(tickets))`: the deduplicated union,
sorted. -/
def sortedUnion (existing tickets : List String) : List String :=
  sortStrings ((existing ++ tickets).dedup)

/-- Processing of one remote project by the refresh: the backup project and
projects whose issue fetch fails are skipped; otherwise the project's ticket
labels are unioned into its catalog entry and its name is added to the
project set. -/
def refreshStep (backupProj : String)
    (acc : List String × List (String × List String)) (p : RemoteProject) :
    List String × List (String × List String) :=
  if p.name = backupProj then acc
  else if p.fetchIssuesFails then acc
  else
    let tickets := p.issues.map ticketLabel
    let existing := getWorkPackages acc.2 p.name
    ((if acc.1.contains p.name then acc.1 else acc.1 ++ [p.name]),
      setWorkPackages acc.2 p.name (sortedUnion existing tickets))

/-- Embedding of
`RedmineManager.update_config_with_projects_and_tickets`: skipped entirely
when the one-shot `REDMINE_CONFIG_UPDATED` flag is set or `project.all()`
fails; otherwise every remote project is folded into the catalog and the
flag is set. -/
def update_config_with_projects_and_tickets (cfg : CatalogConfig)
    (listProjectsFails : Bool) (remote : List RemoteProject) : CatalogConfig :=
  if cfg.configUpdated then cfg
  else if listProjectsFails then cfg
  else
    let res := remote.foldl (refreshStep cfg.backupProject)
      (cfg.projects, cfg.workPackages)
    { cfg with projects := sortStrings res.1.dedup,
               workPackages := res.2,
               configUpdated := true }

/-! ### Lemmas about the catalog refresh -/

lemma mem_insertSorted {x s : String} :
    ∀ l : List String, x ∈ insertSorted s l ↔ x = s ∨ x ∈ l := by
  intro l
  induction l with
  | nil => simp [insertSorted]
  | cons y ys ih =>
    unfold insertSorted
    by_cases h : s ≤ y
    · simp [h]
    · simp only [h, if_false, List.mem_cons, ih]
      tauto

lemma mem_sortStrings {x : String} :
    ∀ l : List String, x ∈ sortStrings l ↔ x ∈ l := by
  intro l
  induction l with
  | nil => simp [sortStrings]
  | cons y ys ih =>
    unfold sortStrings
    rw [mem_insertSorted, ih, List.mem_cons]

lemma mem_sortedUnion {x : String} {a b : List String} :
    x ∈ sortedUnion a b ↔ x ∈ a ∨ x ∈ b := by
  unfold sortedUnion
  rw [mem_sortStrings, List.mem_dedup, List.mem_append]

lemma getWorkPackages_overwrite {name : String} {v : List String} :
    ∀ w : List (String × List String), containsKey w name = true →
      getWorkPackages
        (w.map fun kv => if kv.1 = name then (kv.1, v) else kv) name = v := by
  intro w
  induction w with
  | nil => intro h; cases h
  | cons kv w ih =>
    intro h
    by_cases hkv : kv.1 = name
    · unfold getWorkPackages
      simp [hkv]
    · have hrest : containsKey w name = true := by
        unfold containsKey at h
        rwa [if_neg hkv] at h
      unfold getWorkPackages
      simp only [List.map_cons, if_neg hkv]
      exact ih hrest

lemma getWorkPackages_append_new {name : String} {v : List String} :
    ∀ w : List (String × List String), containsKey w name = false →
      getWorkPackages (w ++ [(name, v)]) name = v := by
  intro w
  induction w with
  | nil =>
    intro _
    simp [getWorkPackages]
  | cons kv w ih =>
    intro h
    have hkv : ¬kv.1 = name := by
      intro he
      unfold containsKey at h
      rw [if_pos he] at h
      cases h
    have hrest : containsKey w name = false := by
      unfold containsKey at h
      rwa [if_neg hkv] at h
    rw [List.cons_append]
    simp only [getWorkPackages]
    rw [if_neg hkv]
    exact ih hrest

lemma getWorkPackages_set_self (w : List (String × List String))
    (name : String) (v : List String) :
    getWorkPackages (setWorkPackages w name v) name = v := by
  unfold setWorkPackages
  by_cases h : containsKey w name = true
  · rw [if_pos h]
    exact getWorkPackages_overwrite w h
  · rw [if_neg (by simpa using h)]
    exact getWorkPackages_append_new w (by simpa using h)

lemma getWorkPackages_set_other {name m : String}
    (v : List String) (h : ¬m = name) :
    ∀ w : List (String × List String),
      getWorkPackages (setWorkPackages w name v) m = getWorkPackages w m := by
  have hmap : ∀ w : List (String × List String),
      getWorkPackages
        (w.map fun kv => if kv.1 = name then (kv.1, v) else kv) m =
      getWorkPackages w m := by
    intro w
    induction w with
    | nil => rfl
    | cons kv w ih =>
      by_cases hkv : kv.1 = name
      · have hm : ¬kv.1 = m := fun he => h (he.symm.trans hkv)
        unfold getWorkPackages
        simp only [List.map_cons, if_pos hkv]
        rw [if_neg hm, if_neg hm]
        exact ih
      · unfold getWorkPackages
        simp only [List.map_cons, if_neg hkv]
        by_cases hm : kv.1 = m
        · rw [if_pos hm, if_pos hm]
        · rw [if_neg hm, if_neg hm]
          exact ih
  have happ : ∀ w : List (String × List String),
      getWorkPackages (w ++ [(name, v)]) m = getWorkPackages w m := by
    intro w
    induction w with
    | nil =>
      have hnm : ¬name = m := fun he => h he.symm
      simp [getWorkPackages, hnm]
    | cons kv w ih =>
      rw [List.cons_append]
      simp only [getWorkPackages]
      by_cases hm : kv.1 = m
      · rw [if_pos hm, if_pos hm]
      · rw [if_neg hm, if_neg hm]
        exact ih
  intro w
  unfold setWorkPackages
  by_cases hc : containsKey w name = true
  · rw [if_pos hc]
    exact hmap w
  · rw [if_neg (by simpa using hc)]
    exact happ w

lemma refreshStep_mono (bp : String)
    (acc : List String × List (String × List String)) (p : RemoteProject)
    {name x : String} (hx : x ∈ getWorkPackages acc.2 name) :
    x ∈ getWorkPackages (refreshStep bp acc p).2 name := by
  unfold refreshStep
  by_cases h1 : p.name = bp
  · rw [if_pos h1]
    exact hx
  · rw [if_neg h1]
    by_cases h2 : p.fetchIssuesFails = true
    · rw [if_pos h2]
      exact hx
    · rw [if_neg h2]
      by_cases hn : name = p.name
      · subst hn
        rw [getWorkPackages_set_self]
        exact mem_sortedUnion.mpr (Or.inl hx)
      · rw [getWorkPackages_set_other _ hn]
        exact hx

lemma refreshFold_mono (bp : String) (remote : List RemoteProject) :
    ∀ acc : List String × List (String × List String), ∀ name x : String,
      x ∈ getWorkPackages acc.2 name →
      x ∈ getWorkPackages (remote.foldl (refreshStep bp) acc).2 name := by
  induction remote with
  | nil => intro acc name x hx; exact hx
  | cons p remote ih =>
    intro acc name x hx
    exact ih (refreshStep bp acc p) name x (refreshStep_mono bp acc p hx)

lemma refreshStep_sets (bp : String)
    (acc : List String × List (String × List String)) (p : RemoteProject)
    (h1 : ¬p.name = bp) (h2 : p.fetchIssuesFails = false) :
    (refreshStep bp acc p).2 =
      setWorkPackages acc.2 p.name
        (sortedUnion (getWorkPackages acc.2 p.name)
          (p.issues.map ticketLabel)) := by
  unfold refreshStep
  rw [if_neg h1, if_neg (by simp [h2])]

lemma refresh_workPackages_singleton (cfg : CatalogConfig)
    (p : RemoteProject) (hflag : cfg.configUpdated = false)
    (hbp : ¬p.name = cfg.backupProject) (hff : p.fetchIssuesFails = false) :
    (update_config_with_projects_and_tickets cfg false [p]).workPackages =
      setWorkPackages cfg.workPackages p.name
        (sortedUnion (getWorkPackages cfg.workPackages p.name)
          (p.issues.map ticketLabel)) := by
  unfold update_config_with_projects_and_tickets
  rw [if_neg (by simp [hflag]), if_neg (by simp)]
  show (refreshStep cfg.backupProject (cfg.projects, cfg.workPackages) p).2 =
    setWorkPackages cfg.workPackages p.name
      (sortedUnion (getWorkPackages cfg.workPackages p.name)
        (p.issues.map ticketLabel))
  exact refreshStep_sets cfg.backupProject (cfg.projects, cfg.workPackages)
    p hbp hff

lemma refresh_sets_flag (cfg : CatalogConfig) (remote : List RemoteProject)
    (hflag : cfg.configUpdated = false) :
    (update_config_with_projects_and_tickets cfg false remote).configUpdated =
      true := by
  unfold update_config_with_projects_and_tickets
  rw [if_neg (by simp [hflag]), if_neg (by simp)]

lemma refresh_keeps_backupProject (cfg : CatalogConfig) (lf : Bool)
    (remote : List RemoteProject) :
    (update_config_with_projects_and_tickets cfg lf remote).backupProject =
      cfg.backupProject := by
  unfold update_config_with_projects_and_tickets
  by_cases h1 : cfg.configUpdated = true
  · rw [if_pos h1]
  · rw [if_neg h1]
    by_cases h2 : lf = true
    · rw [if_pos h2]
    · rw [if_neg h2]

/-! ### Claim C10 -/

/-- C10: the catalog refresh is monotonic-additive — after a refresh every
project's work-package list contains everything it contained before, no
matter what the remote returns — and one-shot: with the `already updated`
flag set a refresh changes nothing.  Refreshing, then refreshing again after
explicitly clearing the flag, with the remote having replaced the one ticket
by another, leaves the catalog containing the union of both tickets; without
clearing the flag the second refresh is a no-op. -/
theorem config_refresh_monotonic_oneshot :
    (∀ (cfg : CatalogConfig) (lf : Bool) (remote : List RemoteProject)
        (name x : String),
        x ∈ getWorkPackages cfg.workPackages name →
        x ∈ getWorkPackages
            (update_config_with_projects_and_tickets cfg lf remote).workPackages
            name) ∧
    (∀ (cfg : CatalogConfig) (lf : Bool) (remote : List RemoteProject),
        cfg.configUpdated = true →
        update_config_with_projects_and_tickets cfg lf remote = cfg) ∧
    (∀ (cfg : CatalogConfig) (pname : String) (iOld iNew : Nat × String),
        cfg.configUpdated = false → ¬pname = cfg.backupProject →
        update_config_with_projects_and_tickets
            (update_config_with_projects_and_tickets cfg false
              [⟨pname, false, [iOld]⟩])
            false [⟨pname, false, [iNew]⟩] =
          update_config_with_projects_and_tickets cfg false
            [⟨pname, false, [iOld]⟩] ∧
        ticketLabel iOld ∈ getWorkPackages
          (update_config_with_projects_and_tickets
              { update_config_with_projects_and_tickets cfg false
                  [⟨pname, false, [iOld]⟩] with configUpdated := false }
              false [⟨pname, false, [iNew]⟩]).workPackages pname ∧
        ticketLabel iNew ∈ getWorkPackages
          (update_config_with_projects_and_tickets
              { update_config_with_projects_and_tickets cfg false
                  [⟨pname, false, [iOld]⟩] with configUpdated := false }
              false [⟨pname, false, [iNew]⟩]).workPackages pname) := by
  have mono : ∀ (cfg : CatalogConfig) (lf : Bool)
      (remote : List RemoteProject) (name x : String),
      x ∈ getWorkPackages cfg.workPackages name →
      x ∈ getWorkPackages
          (update_config_with_projects_and_tickets cfg lf remote).workPackages
          name := by
    intro cfg lf remote name x hx
    unfold update_config_with_projects_and_tickets
    by_cases h1 : cfg.configUpdated = true
    · rw [if_pos h1]
      exact hx
    · rw [if_neg h1]
      by_cases h2 : lf = true
      · rw [if_pos h2]
        exact hx
      · rw [if_neg h2]
        exact refreshFold_mono cfg.backupProject remote
          (cfg.projects, cfg.workPackages) name x hx
  have oneshot : ∀ (cfg : CatalogConfig) (lf : Bool)
      (remote : List RemoteProject), cfg.configUpdated = true →
      update_config_with_projects_and_tickets cfg lf remote = cfg := by
    intro cfg lf remote h
    unfold update_config_with_projects_and_tickets
    rw [if_pos h]
  refine ⟨mono, oneshot, ?_⟩
  intro cfg pname iOld iNew hflag hbp
  set c1 := update_config_with_projects_and_tickets cfg false
    [⟨pname, false, [iOld]⟩] with hc1
  have hc1flag : c1.configUpdated = true :=
    refresh_sets_flag cfg [⟨pname, false, [iOld]⟩] hflag
  have hc1wps : c1.workPackages =
      setWorkPackages cfg.workPackages pname
        (sortedUnion (getWorkPackages cfg.workPackages pname)
          [ticketLabel iOld]) :=
    refresh_workPackages_singleton cfg ⟨pname, false, [iOld]⟩ hflag hbp rfl
  have hOld1 : ticketLabel iOld ∈ getWorkPackages c1.workPackages pname := by
    rw [hc1wps, getWorkPackages_set_self]
    exact mem_sortedUnion.mpr (Or.inr (List.mem_singleton.mpr rfl))
  refine ⟨oneshot c1 false [⟨pname, false, [iNew]⟩] hc1flag, ?_, ?_⟩
  · exact mono { c1 with configUpdated := false } false
      [⟨pname, false, [iNew]⟩] pname (ticketLabel iOld) hOld1
  · set c1c : CatalogConfig := { c1 with configUpdated := false } with hc1c
    have hbp2 : ¬pname = c1c.backupProject := by
      have : c1c.backupProject = cfg.backupProject := by
        rw [hc1c]
        show c1.backupProject = cfg.backupProject
        rw [hc1]
        exact refresh_keeps_backupProject cfg false [⟨pname, false, [iOld]⟩]
      rw [this]
      exact hbp
    have hc2wps : (update_config_with_projects_and_tickets c1c false
        [⟨pname, false, [iNew]⟩]).workPackages =
        setWorkPackages c1c.workPackages pname
          (sortedUnion (getWorkPackages c1c.workPackages pname)
            [ticketLabel iNew]) :=
      refresh_workPackages_singleton c1c ⟨pname, false, [iNew]⟩ rfl hbp2 rfl
    rw [hc2wps, getWorkPackages_set_self]
    exact mem_sortedUnion.mpr (Or.inr (List.mem_singleton.mpr rfl))

/-- C10 witness: the refresh behaviour evaluated on a concrete catalog with
one known ticket, with the remote replacing it by a new ticket between the
two refreshes and the one-shot flag cleared in between. -/
theorem config_refresh_monotonic_oneshot_witness :
    update_config_with_projects_and_tickets
        (update_config_with_projects_and_tickets
          ⟨["Projekt A"], [("Projekt A", ["1: Alt"])], "Backup", false⟩
          false [⟨"Projekt A", false, [(1, "Alt")]⟩])
        false [⟨"Projekt A", false, [(2, "Neu")]⟩] =
      update_config_with_projects_and_tickets
        ⟨["Projekt A"], [("Projekt A", ["1: Alt"])], "Backup", false⟩
        false [⟨"Projekt A", false, [(1, "Alt")]⟩] ∧
    ticketLabel (1, "Alt") ∈ getWorkPackages
      (update_config_with_projects_and_tickets
          { update_config_with_projects_and_tickets
              ⟨["Projekt A"], [("Projekt A", ["1: Alt"])], "Backup", false⟩
              false [⟨"Projekt A", false, [(1, "Alt")]⟩] with
            configUpdated := false }
          false [⟨"Projekt A", false, [(2, "Neu")]⟩]).workPackages
      "Projekt A" ∧
    ticketLabel (2, "Neu") ∈ getWorkPackages
      (update_config_with_projects_and_tickets
          { update_config_with_projects_and_tickets
              ⟨["Projekt A"], [("Projekt A", ["1: Alt"])], "Backup", false⟩
              false [⟨"Projekt A", false, [(1, "Alt")]⟩] with
            configUpdated := false }
          false [⟨"Projekt A", false, [(2, "Neu")]⟩]).workPackages
      "Projekt A" :=
  config_refresh_monotonic_oneshot.2.2
    ⟨["Projekt A"], [("Projekt A", ["1: Alt"])], "Backup", false⟩
    "Projekt A" (1, "Alt") (2, "Neu") rfl (by decide)

end Zeiterfassung
